import Mathlib

/-!
Verification of the news-aggregation pipeline in `news_scraper_hybrid.py`:
fetch-result normalization by the provider adapters, URL-based
deduplication, keyword categorization, the summarizer digest and the
markdown report assembly, embedded shallowly as Lean functions.
-/

namespace NewsScraper

/-- One fetched news item, as the dict built by the adapters
(`title`, `url`, `source`, `region`, `publish_date`, `description`);
a missing field is the empty string (the code reads them with
`article.get(key, '')`). -/
structure Article where
  title : String
  url : String
  source : String
  region : String
  publish_date : String
  description : String
deriving DecidableEq, Repr

/-- The dedup loop of `HybridNewsScraper.scrape_news` (lines 538-546):
walk the concatenated article list with a `seen_urls` set, keeping an
article exactly when its url is non-empty and not seen yet. -/
def dedupGo (seen : List String) : List Article → List Article
  | [] => []
  | a :: rest =>
    if a.url ≠ "" ∧ a.url ∉ seen then
      a :: dedupGo (a.url :: seen) rest
    else
      dedupGo seen rest

/-- Deduplication as performed by `scrape_news`: start with no seen urls. -/
def dedup (articles : List Article) : List Article :=
  dedupGo [] articles

/-- Deduplication as the spec words it: drop records with an empty url;
keep the first record bearing each url and remove every later record
with the same url. -/
def dedupSpec : List Article → List Article
  | [] => []
  | a :: rest =>
    if a.url = "" then dedupSpec rest
    else a :: dedupSpec (rest.filter (fun b => b.url != a.url))
termination_by xs => xs.length
decreasing_by
  · simp
  · simp only [List.length_cons, Nat.lt_succ_iff]
    exact List.length_filter_le _ _

theorem dedupGo_eq_dedupSpec (seen : List String) (xs : List Article) :
    dedupGo seen xs = dedupSpec (xs.filter (fun a => decide (a.url ∉ seen))) := by
  induction xs generalizing seen with
  | nil => simp [dedupGo, dedupSpec]
  | cons a rest ih =>
    by_cases hseen : a.url ∈ seen
    · have hcond : ¬(a.url ≠ "" ∧ a.url ∉ seen) := by
        intro h; exact h.2 hseen
      simp only [dedupGo, if_neg hcond, List.filter_cons]
      have : (decide (a.url ∉ seen)) = false := by simp [hseen]
      rw [this]
      simp only [Bool.false_eq_true, if_neg (by simp : ¬False)]
      exact ih seen
    · by_cases hurl : a.url = ""
      · have hcond : ¬(a.url ≠ "" ∧ a.url ∉ seen) := by
          intro h; exact h.1 hurl
        simp only [dedupGo, if_neg hcond, List.filter_cons]
        have : (decide (a.url ∉ seen)) = true := by simp [hseen]
        rw [this]
        simp only [if_pos trivial]
        rw [dedupSpec, if_pos hurl]
        exact ih seen
      · have hcond : a.url ≠ "" ∧ a.url ∉ seen := ⟨hurl, hseen⟩
        simp only [dedupGo, if_pos hcond, List.filter_cons]
        have : (decide (a.url ∉ seen)) = true := by simp [hseen]
        rw [this]
        simp only [if_pos trivial]
        rw [dedupSpec, if_neg hurl]
        congr 1
        rw [ih (a.url :: seen), List.filter_filter]
        congr 1
        apply List.filter_congr
        intro b _
        by_cases hb : b.url = a.url <;> by_cases hs : b.url ∈ seen <;>
          simp [hb, hs, List.mem_cons]

theorem dedupGo_sublist (seen : List String) (xs : List Article) :
    (dedupGo seen xs).Sublist xs := by
  induction xs generalizing seen with
  | nil => simp [dedupGo]
  | cons a rest ih =>
    rw [dedupGo]
    split
    · exact (ih (a.url :: seen)).cons₂ a
    · exact (ih seen).cons a

/-- C1: the dedup step keeps, for each url, only the first record bearing
that url in concatenation order, drops every record with an empty url, and
preserves the relative order of the kept records (the output is a sublist
of the input). -/
theorem dedup_first_seen_wins (xs : List Article) :
    dedup xs = dedupSpec xs ∧ (dedup xs).Sublist xs := by
  constructor
  · rw [dedup, dedupGo_eq_dedupSpec]
    congr 1
    apply List.filter_eq_self.mpr
    intro a _
    simp
  · exact dedupGo_sublist [] xs

theorem dedupGo_urls_fresh (seen : List String) (xs : List Article) :
    ∀ a ∈ dedupGo seen xs, a.url ≠ "" ∧ a.url ∉ seen := by
  induction xs generalizing seen with
  | nil => simp [dedupGo]
  | cons a rest ih =>
    rw [dedupGo]
    split
    · rename_i hcond
      intro b hb
      rcases List.mem_cons.mp hb with hb | hb
      · subst hb; exact hcond
      · have := ih (a.url :: seen) b hb
        exact ⟨this.1, fun hm => this.2 (List.mem_cons_of_mem _ hm)⟩
    · intro b hb
      exact ih seen b hb

theorem dedupGo_nodup_urls (seen : List String) (xs : List Article) :
    ((dedupGo seen xs).map Article.url).Nodup := by
  induction xs generalizing seen with
  | nil => simp [dedupGo]
  | cons a rest ih =>
    rw [dedupGo]
    split
    · simp only [List.map_cons, List.nodup_cons]
      refine ⟨?_, ih (a.url :: seen)⟩
      intro hmem
      rcases List.mem_map.mp hmem with ⟨b, hb, hurl⟩
      have := (dedupGo_urls_fresh _ _ b hb).2
      exact this (hurl ▸ List.mem_cons_self _ _)
    · exact ih seen

theorem dedupGo_id_of_fresh (seen : List String) (xs : List Article)
    (hnodup : (xs.map Article.url).Nodup)
    (hfresh : ∀ a ∈ xs, a.url ≠ "" ∧ a.url ∉ seen) :
    dedupGo seen xs = xs := by
  induction xs generalizing seen with
  | nil => simp [dedupGo]
  | cons a rest ih =>
    rw [dedupGo, if_pos (hfresh a (List.mem_cons_self _ _))]
    congr 1
    simp only [List.map_cons, List.nodup_cons] at hnodup
    apply ih (a.url :: seen) hnodup.2
    intro b hb
    refine ⟨(hfresh b (List.mem_cons_of_mem _ hb)).1, ?_⟩
    intro hmem
    rcases List.mem_cons.mp hmem with h | h
    · exact hnodup.1 (h ▸ List.mem_map_of_mem Article.url hb)
    · exact (hfresh b (List.mem_cons_of_mem _ hb)).2 h

/-- C7: deduplication is idempotent — on a sequence whose records already
have pairwise-distinct non-empty urls it is the identity, and applying it
to its own output always returns that output unchanged. -/
theorem dedup_idempotent (xs : List Article)
    (hnodup : (xs.map Article.url).Nodup)
    (hne : ∀ a ∈ xs, a.url ≠ "") :
    dedup xs = xs ∧ ∀ ys : List Article, dedup (dedup ys) = dedup ys := by
  constructor
  · exact dedupGo_id_of_fresh [] xs hnodup (fun a ha => ⟨hne a ha, by simp⟩)
  · intro ys
    apply dedupGo_id_of_fresh [] (dedup ys) (dedupGo_nodup_urls [] ys)
    intro a ha
    exact ⟨(dedupGo_urls_fresh [] ys a ha).1, by simp⟩

/-- Witness for C7 at a concrete two-article input with distinct urls. -/
theorem dedup_idempotent_witness :
    dedup [⟨"t1", "http://a", "s", "r", "d", "x"⟩, ⟨"t2", "http://b", "s", "r", "d", "y"⟩]
      = [⟨"t1", "http://a", "s", "r", "d", "x"⟩, ⟨"t2", "http://b", "s", "r", "d", "y"⟩] :=
  (dedup_idempotent _ (by decide) (by decide)).1

/-- The keyword taxonomy `self.keywords`: a Python dict mapping category
name to its keyword list; dicts preserve insertion order, so it is an
ordered association list (keys unique in an actual dict). -/
abbrev Taxonomy := List (String × List String)

/-- Dict lookup `self.keywords[category]` (first entry with that key). -/
def lookupKeywords (kws : Taxonomy) (category : String) : Option (List String) :=
  (kws.find? (fun p => p.1 == category)).map Prod.snd

/-- Python's `str.lower()`, modelled as per-character lowercasing. -/
def lowerStr (s : String) : String :=
  ⟨s.data.map Char.toLower⟩

/-- Python's `sub in s` substring test, on the character lists. -/
def hasSubstr (s sub : String) : Bool :=
  decide (sub.data <:+: s.data)

/-- `HybridNewsScraper._match_keywords` (lines 396-407): false on empty
text or an unknown category, otherwise true iff some keyword of the
category occurs, lowercased, in the lowercased text. -/
def matchKeywords (kws : Taxonomy) (text : String) (category : String) : Bool :=
  if text = "" then false
  else
    match lookupKeywords kws category with
    | none => false
    | some keywords => keywords.any (fun k => hasSubstr (lowerStr text) (lowerStr k))

/-- `HybridNewsScraper._categorize_article` (lines 409-427): join title and
description with a space, return the first category (in taxonomy order)
whose keywords match, else the fallback "其他". -/
def categorizeArticle (kws : Taxonomy) (article : Article) : String :=
  let text := article.title ++ " " ++ article.description
  match kws.find? (fun p => matchKeywords kws text p.1) with
  | some p => p.1
  | none => "其他"

theorem append_space_ne_empty (s t : String) : s ++ " " ++ t ≠ "" := by
  intro h
  have hd : (s ++ " " ++ t).data = "".data := by rw [h]
  simp only [String.data_append] at hd
  simp at hd

theorem lookupKeywords_of_mem (kws : Taxonomy) (c : String) (ks : List String)
    (hnodup : (kws.map Prod.fst).Nodup) (hmem : (c, ks) ∈ kws) :
    lookupKeywords kws c = some ks := by
  induction kws with
  | nil => simp at hmem
  | cons p rest ih =>
    simp only [List.map_cons, List.nodup_cons] at hnodup
    rcases List.mem_cons.mp hmem with h | h
    · subst h
      simp [lookupKeywords, List.find?_cons_of_pos]
    · have hne : p.1 ≠ c := by
        intro he
        exact hnodup.1 (he ▸ List.mem_map_of_mem Prod.fst h)
      have : lookupKeywords rest c = some ks := ih hnodup.2 h
      simp only [lookupKeywords, List.find?] at this ⊢
      have hbeq : (p.1 == c) = false := by
        simp [hne]
      rw [hbeq]
      exact this

/-- C3: categorization is total — for every article the returned name is a
member of the taxonomy's category names together with the fallback "其他". -/
theorem categorize_total (kws : Taxonomy) (a : Article) :
    categorizeArticle kws a ∈ kws.map Prod.fst ++ ["其他"] := by
  rw [categorizeArticle]
  cases hf : kws.find? (fun p => matchKeywords kws (a.title ++ " " ++ a.description) p.1) with
  | none => simp
  | some p =>
    have := List.mem_of_find?_eq_some hf
    simp only [List.mem_append]
    exact Or.inl (List.mem_map_of_mem Prod.fst this)

/-- C2: categorization lowercases the space-joined title and snippet,
walks the taxonomy in its configured order and returns the first category
having some keyword occurring (case-insensitively, as a substring) in that
text: if no category before `c` has a matching keyword and `c` has one,
the article is assigned to `c`. -/
theorem categorize_first_match (kws : Taxonomy) (a : Article)
    (pre post : Taxonomy) (c : String) (ks : List String)
    (hnodup : (kws.map Prod.fst).Nodup)
    (hsplit : kws = pre ++ (c, ks) :: post)
    (hpre : ∀ p ∈ pre, ∀ k ∈ p.2,
      ¬ ((lowerStr k).data <:+: (lowerStr (a.title ++ " " ++ a.description)).data))
    (hc : ∃ k ∈ ks,
      (lowerStr k).data <:+: (lowerStr (a.title ++ " " ++ a.description)).data) :
    categorizeArticle kws a = c := by
  have htext : a.title ++ " " ++ a.description ≠ "" := append_space_ne_empty _ _
  have hmc : matchKeywords kws (a.title ++ " " ++ a.description) c = true := by
    have hlook : lookupKeywords kws c = some ks :=
      lookupKeywords_of_mem kws c ks hnodup
        (hsplit ▸ List.mem_append_right pre (List.mem_cons_self _ _))
    unfold matchKeywords
    rw [if_neg htext, hlook]
    obtain ⟨k, hk, hinf⟩ := hc
    simp only [List.any_eq_true]
    exact ⟨k, hk, by simp [hasSubstr, hinf]⟩
  have hmp : ∀ p ∈ pre, matchKeywords kws (a.title ++ " " ++ a.description) p.1 = false := by
    intro p hp
    have hlookp : lookupKeywords kws p.1 = some p.2 :=
      lookupKeywords_of_mem kws p.1 p.2 hnodup (hsplit ▸ List.mem_append_left _ hp)
    unfold matchKeywords
    rw [if_neg htext, hlookp]
    simp only [List.any_eq_false]
    intro k hk
    simp [hasSubstr, hpre p hp k hk]
  simp only [categorizeArticle]
  have h1 : List.find?
      (fun p => matchKeywords kws (a.title ++ " " ++ a.description) p.1) pre = none := by
    rw [List.find?_eq_none]
    intro p hp
    simp [hmp p hp]
  have h2 : List.find?
      (fun p => matchKeywords kws (a.title ++ " " ++ a.description) p.1) ((c, ks) :: post)
      = some (c, ks) :=
    List.find?_cons_of_pos _ (by simpa using hmc)
  have hfind : List.find?
      (fun p => matchKeywords kws (a.title ++ " " ++ a.description) p.1) kws
      = some (c, ks) := by
    calc List.find? (fun p => matchKeywords kws (a.title ++ " " ++ a.description) p.1) kws
        = List.find? (fun p => matchKeywords kws (a.title ++ " " ++ a.description) p.1)
            (pre ++ (c, ks) :: post) := by rw [← hsplit]
      _ = some (c, ks) := by rw [List.find?_append, h1]; simp [h2]
  rw [hfind]

/-- Witness for C2: taxonomy order [A, B] with keywords "x" and "y"; an
article whose title holds both "x" and "y" goes to A. -/
theorem categorize_first_match_witness :
    categorizeArticle [("A", ["x"]), ("B", ["y"])] ⟨"x y", "u", "s", "r", "d", ""⟩ = "A" :=
  categorize_first_match _ _ [] [("B", ["y"])] "A" ["x"]
    (by decide) rfl (by simp) (by decide)

/-- Python dict assignment `d[k] = v`: overwrite the entry in place when
the key is present, else append a new entry (dicts keep insertion order). -/
def dictSet (m : List (String × List Article)) (k : String) (v : List Article) :
    List (String × List Article) :=
  if k ∈ m.map Prod.fst then m.map (fun p => if p.1 = k then (p.1, v) else p)
  else m ++ [(k, v)]

/-- `categorized_news[category].append(article)`: append to the bucket of
an existing key. -/
def dictAppend (m : List (String × List Article)) (k : String) (a : Article) :
    List (String × List Article) :=
  m.map (fun p => if p.1 = k then (p.1, p.2 ++ [a]) else p)

/-- Python dict read `d[k]` (None when the key is absent). -/
def dictGet (m : List (String × List Article)) (k : String) :
    Option (List Article) :=
  (m.find? (fun p => p.1 == k)).map Prod.snd

/-- The buckets set up by `scrape_news` lines 550-551: one empty bucket
per taxonomy category, then `categorized_news["其他"] = []`. -/
def initCategories (kws : Taxonomy) : List (String × List Article) :=
  dictSet (kws.map (fun p => (p.1, ([] : List Article)))) "其他" []

/-- The categorization stage of `scrape_news` (lines 549-557): set up the
buckets, then append every unique article to its category's bucket. -/
def categorizeNews (kws : Taxonomy) (articles : List Article) :
    List (String × List Article) :=
  articles.foldl (fun m a => dictAppend m (categorizeArticle kws a) a)
    (initCategories kws)

theorem dictAppend_keys (m : List (String × List Article)) (k : String) (a : Article) :
    (dictAppend m k a).map Prod.fst = m.map Prod.fst := by
  rw [dictAppend, List.map_map]
  apply List.map_congr_left
  intro p _
  by_cases h : p.1 = k <;> simp [h]

theorem dictAppend_cons (p : String × List Article)
    (rest : List (String × List Article)) (k : String) (a : Article) :
    dictAppend (p :: rest) k a
      = (if p.1 = k then (p.1, p.2 ++ [a]) else p) :: dictAppend rest k a := rfl

theorem dictAppend_of_not_mem (m : List (String × List Article)) (k : String)
    (a : Article) (h : k ∉ m.map Prod.fst) : dictAppend m k a = m := by
  induction m with
  | nil => rfl
  | cons p rest ih =>
    simp only [List.map_cons, List.mem_cons, not_or] at h
    rw [dictAppend_cons, if_neg (fun he => h.1 he.symm), ih h.2]

theorem dictGet_cons_of_eq (p : String × List Article)
    (rest : List (String × List Article)) (c : String) (h : p.1 = c) :
    dictGet (p :: rest) c = some p.2 := by
  simp only [dictGet, List.find?_cons]
  have : (p.1 == c) = true := by simp [h]
  rw [this]
  rfl

theorem dictGet_cons_of_ne (p : String × List Article)
    (rest : List (String × List Article)) (c : String) (h : ¬ p.1 = c) :
    dictGet (p :: rest) c = dictGet rest c := by
  simp only [dictGet, List.find?_cons]
  have : (p.1 == c) = false := by simp [h]
  rw [this]

theorem dictGet_dictAppend (m : List (String × List Article)) (k c : String)
    (a : Article) :
    dictGet (dictAppend m k a) c
      = (dictGet m c).map (fun v => if c = k then v ++ [a] else v) := by
  induction m with
  | nil => simp [dictGet, dictAppend]
  | cons p rest ih =>
    rw [dictAppend_cons]
    by_cases hk : p.1 = k
    · rw [if_pos hk]
      by_cases hc : p.1 = c
      · have hck : c = k := by rw [← hc, hk]
        rw [dictGet_cons_of_eq (p.1, p.2 ++ [a]) (dictAppend rest k a) c hc,
          dictGet_cons_of_eq p rest c hc]
        simp [hck]
      · rw [dictGet_cons_of_ne (p.1, p.2 ++ [a]) (dictAppend rest k a) c hc,
          dictGet_cons_of_ne p rest c hc]
        exact ih
    · rw [if_neg hk]
      by_cases hc : p.1 = c
      · have hck : ¬ c = k := fun he => hk (hc.trans he)
        rw [dictGet_cons_of_eq p (dictAppend rest k a) c hc,
          dictGet_cons_of_eq p rest c hc]
        simp [hck]
      · rw [dictGet_cons_of_ne p (dictAppend rest k a) c hc,
          dictGet_cons_of_ne p rest c hc]
        exact ih

theorem foldl_keys (kws : Taxonomy) (arts : List Article)
    (m : List (String × List Article)) :
    (arts.foldl (fun m a => dictAppend m (categorizeArticle kws a) a) m).map Prod.fst
      = m.map Prod.fst := by
  induction arts generalizing m with
  | nil => rfl
  | cons a rest ih =>
    rw [List.foldl_cons, ih, dictAppend_keys]

theorem foldl_dictGet (kws : Taxonomy) (arts : List Article) (c : String)
    (m : List (String × List Article)) :
    dictGet (arts.foldl (fun m a => dictAppend m (categorizeArticle kws a) a) m) c
      = (dictGet m c).map
          (fun v => v ++ arts.filter (fun a => categorizeArticle kws a == c)) := by
  induction arts generalizing m with
  | nil =>
    cases h : dictGet m c <;> simp [h]
  | cons a rest ih =>
    rw [List.foldl_cons, ih, dictGet_dictAppend]
    cases h : dictGet m c with
    | none => simp
    | some v =>
      by_cases hcat : categorizeArticle kws a = c
      · simp [List.filter_cons, hcat, List.append_assoc]
      · have h1 : ¬ c = categorizeArticle kws a := fun he => hcat he.symm
        simp [List.filter_cons, hcat, h1]

theorem initCategories_keys (kws : Taxonomy) :
    (initCategories kws).map Prod.fst
      = if "其他" ∈ kws.map Prod.fst then kws.map Prod.fst
        else kws.map Prod.fst ++ ["其他"] := by
  have hbase : (kws.map (fun p => (p.1, ([] : List Article)))).map Prod.fst
      = kws.map Prod.fst := by
    rw [List.map_map]; rfl
  rw [initCategories, dictSet, hbase]
  by_cases h : "其他" ∈ kws.map Prod.fst
  · rw [if_pos h, if_pos h, List.map_map]
    have : ∀ p ∈ kws.map (fun p => (p.1, ([] : List Article))),
        (Prod.fst ∘ fun p : String × List Article =>
          if p.1 = "其他" then (p.1, ([] : List Article)) else p) p = Prod.fst p := by
      intro p _
      by_cases hp : p.1 = "其他" <;> simp [hp]
    rw [List.map_congr_left this, hbase]
  · rw [if_neg h, if_neg h, List.map_append, hbase]
    rfl

theorem initCategories_values (kws : Taxonomy) :
    ∀ p ∈ initCategories kws, p.2 = [] := by
  intro p hp
  have hbase : ∀ q ∈ kws.map (fun p => (p.1, ([] : List Article))), q.2 = [] := by
    intro q hq
    rcases List.mem_map.mp hq with ⟨r, _, he⟩
    rw [← he]
  rw [initCategories, dictSet] at hp
  split at hp
  · rcases List.mem_map.mp hp with ⟨q, hq, he⟩
    have hq2 := hbase q hq
    rw [← he]
    by_cases hk : q.1 = "其他" <;> simp [hk, hq2]
  · rcases List.mem_append.mp hp with h1 | h1
    · exact hbase p h1
    · rw [List.mem_singleton.mp h1]

theorem dictGet_of_empty_values (m : List (String × List Article)) (c : String)
    (hv : ∀ p ∈ m, p.2 = []) (hc : c ∈ m.map Prod.fst) : dictGet m c = some [] := by
  induction m with
  | nil => simp at hc
  | cons p rest ih =>
    by_cases h : p.1 = c
    · rw [dictGet_cons_of_eq p rest c h, hv p (List.mem_cons_self _ _)]
    · rw [dictGet_cons_of_ne p rest c h]
      apply ih (fun q hq => hv q (List.mem_cons_of_mem _ hq))
      rw [List.map_cons] at hc
      rcases List.mem_cons.mp hc with h1 | h1
      · exact absurd h1.symm h
      · exact h1

theorem dictAppend_flatten_perm (m : List (String × List Article)) (k : String)
    (a : Article) (hnodup : (m.map Prod.fst).Nodup) (hk : k ∈ m.map Prod.fst) :
    ((dictAppend m k a).map Prod.snd).flatten.Perm
      ((m.map Prod.snd).flatten ++ [a]) := by
  induction m with
  | nil => simp at hk
  | cons p rest ih =>
    simp only [List.map_cons, List.nodup_cons] at hnodup
    rw [dictAppend_cons]
    by_cases h : p.1 = k
    · rw [if_pos h]
      have hni : k ∉ rest.map Prod.fst := h ▸ hnodup.1
      rw [dictAppend_of_not_mem rest k a hni]
      simp only [List.map_cons, List.flatten_cons, List.append_assoc]
      exact List.Perm.append_left p.2 List.perm_append_comm
    · rw [if_neg h]
      have hk' : k ∈ rest.map Prod.fst := by
        rw [List.map_cons] at hk
        rcases List.mem_cons.mp hk with h1 | h1
        · exact absurd h1.symm h
        · exact h1
      simp only [List.map_cons, List.flatten_cons, List.append_assoc]
      exact List.Perm.append_left p.2 (ih hnodup.2 hk')

theorem foldl_flatten_perm (kws : Taxonomy) (arts : List Article)
    (m : List (String × List Article)) (hnodup : (m.map Prod.fst).Nodup)
    (hmem : ∀ a ∈ arts, categorizeArticle kws a ∈ m.map Prod.fst) :
    ((arts.foldl (fun m a => dictAppend m (categorizeArticle kws a) a) m).map
        Prod.snd).flatten.Perm
      ((m.map Prod.snd).flatten ++ arts) := by
  induction arts generalizing m with
  | nil => simp
  | cons a rest ih =>
    rw [List.foldl_cons]
    have hkeys := dictAppend_keys m (categorizeArticle kws a) a
    have h1 := ih (dictAppend m (categorizeArticle kws a) a)
      (by rw [hkeys]; exact hnodup)
      (fun b hb => by rw [hkeys]; exact hmem b (List.mem_cons_of_mem _ hb))
    refine h1.trans ?_
    have h2 := dictAppend_flatten_perm m (categorizeArticle kws a) a hnodup
      (hmem a (List.mem_cons_self _ _))
    refine (h2.append_right rest).trans ?_
    rw [List.append_assoc]
    simp

/-- C4: categorizing the deduplicated articles yields a dict whose keys
are every taxonomy category plus exactly one fallback key, whose bucket
for each key is exactly the dedup-ordered subsequence of articles
categorized there, and whose buckets together are a permutation of the
input (each record lands in exactly one bucket). -/
theorem categorized_partition (kws : Taxonomy) (arts : List Article)
    (hnodup : (kws.map Prod.fst).Nodup) :
    ((categorizeNews kws arts).map Prod.fst
        = if "其他" ∈ kws.map Prod.fst then kws.map Prod.fst
          else kws.map Prod.fst ++ ["其他"])
    ∧ (∀ c ∈ (categorizeNews kws arts).map Prod.fst,
        dictGet (categorizeNews kws arts) c
          = some (arts.filter (fun a => categorizeArticle kws a == c)))
    ∧ ((categorizeNews kws arts).map Prod.snd).flatten.Perm arts := by
  have hkeysI := initCategories_keys kws
  have hkeysR : (categorizeNews kws arts).map Prod.fst
      = (initCategories kws).map Prod.fst := foldl_keys kws arts (initCategories kws)
  have hmemcat : ∀ a : Article,
      categorizeArticle kws a ∈ (initCategories kws).map Prod.fst := by
    intro a
    have := categorize_total kws a
    rw [hkeysI]
    by_cases h : "其他" ∈ kws.map Prod.fst
    · rw [if_pos h]
      rcases List.mem_append.mp this with h1 | h1
      · exact h1
      · rw [List.mem_singleton.mp h1]; exact h
    · rw [if_neg h]; exact this
  have hnodupI : ((initCategories kws).map Prod.fst).Nodup := by
    rw [hkeysI]
    by_cases h : "其他" ∈ kws.map Prod.fst
    · rw [if_pos h]; exact hnodup
    · rw [if_neg h]
      rw [List.nodup_append]
      exact ⟨hnodup, List.nodup_singleton _, by simpa using h⟩
  have hflatI : ((initCategories kws).map Prod.snd).flatten = [] := by
    rw [List.flatten_eq_nil_iff]
    intro x hx
    rcases List.mem_map.mp hx with ⟨p, hp, he⟩
    rw [← he, initCategories_values kws p hp]
  refine ⟨hkeysR.trans hkeysI, ?_, ?_⟩
  · intro c hc
    rw [categorizeNews, foldl_dictGet kws arts c (initCategories kws),
      dictGet_of_empty_values (initCategories kws) c (initCategories_values kws)
        (hkeysR ▸ hc)]
    simp
  · have := foldl_flatten_perm kws arts (initCategories kws) hnodupI
      (fun a _ => hmemcat a)
    rw [hflatI] at this
    simpa using this

/-- Witness for C4 at a concrete taxonomy and article list. -/
theorem categorized_partition_witness :
    (((categorizeNews [("Tech", ["ai"])] [⟨"AI breakthrough", "u1", "s", "r", "d", ""⟩]).map
          Prod.fst
        = if "其他" ∈ ([("Tech", ["ai"])] : Taxonomy).map Prod.fst
          then ([("Tech", ["ai"])] : Taxonomy).map Prod.fst
          else ([("Tech", ["ai"])] : Taxonomy).map Prod.fst ++ ["其他"])
      ∧ (∀ c ∈ (categorizeNews [("Tech", ["ai"])]
            [⟨"AI breakthrough", "u1", "s", "r", "d", ""⟩]).map Prod.fst,
          dictGet (categorizeNews [("Tech", ["ai"])]
              [⟨"AI breakthrough", "u1", "s", "r", "d", ""⟩]) c
            = some ([⟨"AI breakthrough", "u1", "s", "r", "d", ""⟩].filter
                (fun a => categorizeArticle [("Tech", ["ai"])] a == c)))
      ∧ ((categorizeNews [("Tech", ["ai"])]
            [⟨"AI breakthrough", "u1", "s", "r", "d", ""⟩]).map
          Prod.snd).flatten.Perm [⟨"AI breakthrough", "u1", "s", "r", "d", ""⟩]) :=
  categorized_partition [("Tech", ["ai"])]
    [⟨"AI breakthrough", "u1", "s", "r", "d", ""⟩] (by decide)

/-- Python's `s[:n]` slicing, by characters. -/
def takeStr (s : String) (n : Nat) : String :=
  ⟨s.data.take n⟩

/-- Python's `str.strip()`: drop leading and trailing whitespace. -/
def stripStr (s : String) : String :=
  ⟨((s.data.dropWhile Char.isWhitespace).reverse.dropWhile Char.isWhitespace).reverse⟩

/-- The title loop of `_prepare_news_text` (lines 318-321):
`enumerate(articles[:10], 1)` numbering, emitting a line per article whose
stripped title is non-empty (skipped articles still advance the index). -/
def titleLines (idx : Nat) : List Article → List String
  | [] => []
  | a :: rest =>
    if stripStr a.title ≠ "" then
      (toString idx ++ ". " ++ stripStr a.title) :: titleLines (idx + 1) rest
    else
      titleLines (idx + 1) rest

/-- One category's contribution to `_prepare_news_text` (lines 311-321):
nothing for an empty bucket or for the fallback "其他", otherwise a header
line followed by the numbered titles of the first 10 articles. -/
def categoryDigestLines (category : String) (articles : List Article) :
    List String :=
  if articles = [] ∨ category = "其他" then []
  else ("\n【" ++ category ++ "类】(" ++ toString articles.length ++ "篇)")
    :: titleLines 1 (articles.take 10)

/-- `DeepSeekSummarizer._prepare_news_text` (lines 299-323): every
category's lines, joined with newlines. -/
def prepareNewsText (newsData : List (String × List Article)) : String :=
  String.intercalate "\n"
    ((newsData.map (fun p => categoryDigestLines p.1 p.2)).flatten)

/-- Outcome of the chat-completion call inside `generate_daily_summary`:
either a response content string or a raised exception. -/
inductive SummarizerOutcome where
  | ok (text : String)
  | failure
deriving DecidableEq, Repr

/-- `DeepSeekSummarizer.generate_daily_summary` (lines 235-297): return ""
without calling the API when the prepared digest is blank; a caught API
exception also yields "", otherwise the stripped response content. -/
def generateDailySummary (outcome : SummarizerOutcome)
    (newsData : List (String × List Article)) : String :=
  if stripStr (prepareNewsText newsData) = "" then ""
  else
    match outcome with
    | .ok text => stripStr text
    | .failure => ""

theorem titleLines_eq (i : Nat) (xs : List Article) :
    titleLines i xs
      = ((xs.enumFrom i).filter (fun p => decide (stripStr p.2.title ≠ ""))).map
          (fun p => toString p.1 ++ ". " ++ stripStr p.2.title) := by
  induction xs generalizing i with
  | nil => rfl
  | cons a rest ih =>
    rw [titleLines, show List.enumFrom i (a :: rest) = (i, a) :: List.enumFrom (i + 1) rest
      from rfl, List.filter_cons]
    by_cases h : stripStr a.title ≠ ""
    · rw [if_pos h]
      simp [h, ih]
    · rw [if_neg h]
      simp [h, ih]

theorem titleLines_length_le (i : Nat) (xs : List Article) :
    (titleLines i xs).length ≤ xs.length := by
  induction xs generalizing i with
  | nil => simp [titleLines]
  | cons a rest ih =>
    rw [titleLines]
    split
    · simpa using Nat.succ_le_succ (ih (i + 1))
    · exact (ih (i + 1)).trans (Nat.le_succ _)

/-- C9: the digest sent to the summarizer gives each included category at
most 10 titles, namely the stripped non-blank titles among the category's
first 10 articles, numbered and in their stored order. -/
theorem digest_caps_titles (c : String) (arts : List Article)
    (hne : arts ≠ []) (hc : c ≠ "其他") :
    categoryDigestLines c arts
      = ("\n【" ++ c ++ "类】(" ++ toString arts.length ++ "篇)")
        :: (((arts.take 10).enumFrom 1).filter
              (fun p => decide (stripStr p.2.title ≠ ""))).map
            (fun p => toString p.1 ++ ". " ++ stripStr p.2.title)
    ∧ (categoryDigestLines c arts).tail.length ≤ 10 := by
  have h1 : ¬ (arts = [] ∨ c = "其他") := by
    rintro (h | h)
    · exact hne h
    · exact hc h
  refine ⟨?_, ?_⟩
  · rw [categoryDigestLines, if_neg h1, titleLines_eq]
  · rw [categoryDigestLines, if_neg h1]
    simp only [List.tail_cons]
    exact (titleLines_length_le 1 (arts.take 10)).trans
      (by simp [List.length_take_le])

/-- Witness for C9 at a concrete category with a blank-titled article. -/
theorem digest_caps_titles_witness :
    categoryDigestLines "Tech"
        [⟨"AI news", "u1", "s", "r", "d", ""⟩, ⟨"  ", "u2", "s", "r", "d", ""⟩]
      = ["\n【Tech类】(2篇)", "1. AI news"]
    ∧ (categoryDigestLines "Tech"
        [⟨"AI news", "u1", "s", "r", "d", ""⟩, ⟨"  ", "u2", "s", "r", "d", ""⟩]).tail.length
        ≤ 10 := by
  have h := digest_caps_titles "Tech"
    [⟨"AI news", "u1", "s", "r", "d", ""⟩, ⟨"  ", "u2", "s", "r", "d", ""⟩]
    (by decide) (by decide)
  exact ⟨h.1.trans (by decide), h.2⟩

/-- C10: the digest never includes the fallback category "其他" or an
empty category, skips blank titles, and when every article fell into the
fallback the digest is empty and the summarizer returns "" without any
request to the collaborator. -/
theorem digest_excludes_fallback (newsData : List (String × List Article))
    (outcome : SummarizerOutcome) (arts : List Article) (c : String)
    (i : Nat) (a : Article) (rest : List Article)
    (hblank : stripStr a.title = "")
    (hfallback : ∀ p ∈ newsData, p.1 ≠ "其他" → p.2 = []) :
    categoryDigestLines "其他" arts = []
    ∧ categoryDigestLines c [] = []
    ∧ titleLines i (a :: rest) = titleLines (i + 1) rest
    ∧ prepareNewsText newsData = ""
    ∧ generateDailySummary outcome newsData = "" := by
  have hprep : prepareNewsText newsData = "" := by
    rw [prepareNewsText]
    have : (newsData.map (fun p => categoryDigestLines p.1 p.2)).flatten = [] := by
      rw [List.flatten_eq_nil_iff]
      intro x hx
      rcases List.mem_map.mp hx with ⟨p, hp, he⟩
      rw [← he, categoryDigestLines]
      by_cases hph : p.1 = "其他"
      · rw [if_pos (Or.inr hph)]
      · rw [if_pos (Or.inl (hfallback p hp hph))]
    rw [this]
    rfl
  refine ⟨?_, ?_, ?_, hprep, ?_⟩
  · rw [categoryDigestLines, if_pos (Or.inr rfl)]
  · rw [categoryDigestLines, if_pos (Or.inl rfl)]
  · rw [titleLines, if_neg (by simp [hblank])]
  · have h0 : stripStr "" = "" := by decide
    simp [generateDailySummary, hprep, h0]

/-- Witness for C10: one fallback article only — empty digest, no summary
even on a would-be-successful collaborator. -/
theorem digest_excludes_fallback_witness :
    categoryDigestLines "其他" [⟨"t", "u", "s", "r", "d", ""⟩] = []
    ∧ categoryDigestLines "Tech" [] = []
    ∧ titleLines 1 (⟨" ", "u", "s", "r", "d", ""⟩ :: []) = titleLines (1 + 1) []
    ∧ prepareNewsText [("Tech", []), ("其他", [⟨"t", "u", "s", "r", "d", ""⟩])] = ""
    ∧ generateDailySummary (SummarizerOutcome.ok "summary")
        [("Tech", []), ("其他", [⟨"t", "u", "s", "r", "d", ""⟩])] = "" :=
  digest_excludes_fallback
    [("Tech", []), ("其他", [⟨"t", "u", "s", "r", "d", ""⟩])]
    (SummarizerOutcome.ok "summary") [⟨"t", "u", "s", "r", "d", ""⟩] "Tech"
    1 ⟨" ", "u", "s", "r", "d", ""⟩ [] (by decide) (by decide)

/-- A raw NewsAPI article as read by `scrape_from_newsapi`
(lines 453-461); a missing field is the empty string (`.get(..., \'\')`),
and `sourceName` is `article.get('source', {}).get('name', 'NewsAPI')`. -/
structure RawArticle where
  title : String
  url : String
  sourceName : String
  publishedAt : String
  description : String
deriving DecidableEq, Repr

/-- The record `scrape_from_newsapi` builds for one headline article
(lines 453-461). -/
def newsapiToRecord (country : String) (r : RawArticle) : Article :=
  { title := r.title
    url := r.url
    source := r.sourceName
    region := "NewsAPI-" ++ country
    publish_date := if r.publishedAt ≠ "" then takeStr r.publishedAt 10 else "未知"
    description := r.description }

/-- The headline part of `HybridNewsScraper.scrape_from_newsapi` for one
country/category query: every returned article becomes a record. -/
def scrapeFromNewsapiHeadlines (country : String) (raws : List RawArticle) :
    List Article :=
  raws.map (newsapiToRecord country)

/-- A successfully downloaded and parsed article inside
`NewspaperIntegration.fetch_from_source` (lines 183-195): `publishDate`
is the already-formatted `publish_date.strftime("%Y-%m-%d")` when set. -/
structure ParsedArticle where
  title : String
  url : String
  publishDate : Option String
  text : String
deriving DecidableEq, Repr

/-- The record `fetch_from_source` builds for one parsed article
(lines 189-195); the `region` key is absent until `scrape_from_newspaper`
assigns it, so it reads as the empty string here. -/
def newspaperToRecord (sourceUrl : String) (p : ParsedArticle) : Article :=
  { title := p.title
    url := p.url
    source := sourceUrl
    region := ""
    publish_date := match p.publishDate with | some d => d | none => "未知"
    description := if p.text ≠ "" then takeStr p.text 200 ++ "..." else "" }

/-- `NewspaperIntegration.fetch_from_source`: one record per article that
downloaded and parsed without an exception. -/
def fetchFromSource (sourceUrl : String) (parsed : List ParsedArticle) :
    List Article :=
  parsed.map (newspaperToRecord sourceUrl)

/-- C5 counterexample: a NewsAPI headline whose title is missing is still
turned into a record with an empty title, and since its url is non-empty
the dedup step keeps it, so it reaches the later stages — the claimed
adapter-boundary discard does not exist in the code. -/
theorem adapter_empty_title_counterexample :
    (scrapeFromNewsapiHeadlines "us"
        [⟨"", "http://example.com/a", "S", "", ""⟩]).map Article.title = [""]
    ∧ dedup (scrapeFromNewsapiHeadlines "us"
        [⟨"", "http://example.com/a", "S", "", ""⟩])
      = scrapeFromNewsapiHeadlines "us" [⟨"", "http://example.com/a", "S", "", ""⟩]
    ∧ ((categorizeNews [("Tech", ["ai"])]
          (dedup (scrapeFromNewsapiHeadlines "us"
            [⟨"", "http://example.com/a", "S", "", ""⟩]))).map Prod.snd).flatten
      = [⟨"", "http://example.com/a", "S", "NewsAPI-us", "未知", ""⟩] := by
  decide

/-- C5 as amended: neither adapter filters on the title — every fetched
article yields one record whose title is copied verbatim, so empty-title
records can flow on to deduplication, categorization and the report. -/
theorem adapter_no_title_filter (country sourceUrl : String)
    (raws : List RawArticle) (parsed : List ParsedArticle) :
    (scrapeFromNewsapiHeadlines country raws).map Article.title
        = raws.map RawArticle.title
    ∧ (fetchFromSource sourceUrl parsed).map Article.title
        = parsed.map ParsedArticle.title := by
  constructor <;>
    simp [scrapeFromNewsapiHeadlines, fetchFromSource, newsapiToRecord,
      newspaperToRecord, List.map_map, Function.comp]

/-- The configuration read by `HybridNewsScraper.__init__`: the taxonomy
and the adapter toggles used by `scrape_news`. -/
structure Config where
  keywords : Taxonomy
  useNewsapi : Bool
  useNewspaper : Bool
deriving DecidableEq, Repr

/-- State of the configuration file at `config_path`. -/
inductive ConfigSource where
  | missing
  | malformed (err : String)
  | valid (cfg : Config)
deriving DecidableEq, Repr

/-- `HybridNewsScraper._load_config` (lines 384-394): a missing file or a
JSON decode error raises `NewsScraperError` with a descriptive message,
otherwise the parsed config is returned. -/
def loadConfig (path : String) : ConfigSource → Except String Config
  | .missing => .error ("配置文件不存在: " ++ path)
  | .malformed e => .error ("配置文件格式错误: " ++ e)
  | .valid cfg => .ok cfg

/-- The orchestration of `main`: construct the scraper (whose `__init__`
loads the config before anything else), run the enabled fetches, dedup,
categorize and return the report path. The first component records which
adapter fetches were performed; the second is the outcome surfaced to the
caller: the categorized news with the report path, or the
`NewsScraperError` message. -/
def runScraper (path : String) (src : ConfigSource)
    (newsapiArts newspaperArts : List Article) (today : String) :
    List String × Except String (List (String × List Article) × String) :=
  match loadConfig path src with
  | .error e => ([], .error e)
  | .ok cfg =>
    let fetches := (if cfg.useNewsapi then ["newsapi"] else [])
      ++ (if cfg.useNewspaper then ["newspaper"] else [])
    let allArticles := (if cfg.useNewsapi then newsapiArts else [])
      ++ (if cfg.useNewspaper then newspaperArts else [])
    let categorized := categorizeNews cfg.keywords (dedup allArticles)
    (fetches, .ok (categorized, "output/news_daily_report_" ++ today ++ ".md"))

theorem append_ne_empty_of_left (s t : String) (h : s.data ≠ []) :
    s ++ t ≠ "" := by
  intro he
  have hd := congrArg String.data he
  rw [String.data_append] at hd
  exact h (List.append_eq_nil.mp hd).1

/-- C8: with a missing or malformed configuration file the run aborts
before any fetch, surfacing a NewsScraperError with a non-empty message
to the caller, and no report path is produced. -/
theorem config_error_aborts (path today : String) (src : ConfigSource)
    (na np : List Article)
    (h : src = ConfigSource.missing ∨ ∃ e, src = ConfigSource.malformed e) :
    (runScraper path src na np today).1 = []
    ∧ (∃ msg, (runScraper path src na np today).2 = .error msg ∧ msg ≠ "")
    ∧ ∀ r, (runScraper path src na np today).2 ≠ .ok r := by
  rcases h with h | ⟨e, h⟩ <;> subst h
  · refine ⟨rfl, ⟨"配置文件不存在: " ++ path, rfl,
      append_ne_empty_of_left _ _ (by decide)⟩, ?_⟩
    intro r hr
    simp [runScraper, loadConfig] at hr
  · refine ⟨rfl, ⟨"配置文件格式错误: " ++ e, rfl,
      append_ne_empty_of_left _ _ (by decide)⟩, ?_⟩
    intro r hr
    simp [runScraper, loadConfig] at hr

/-- Witness for C8 at a concrete missing configuration file. -/
theorem config_error_aborts_witness :
    (runScraper "config.json" ConfigSource.missing [] [] "2026-01-01").1 = []
    ∧ (∃ msg, (runScraper "config.json" ConfigSource.missing [] []
        "2026-01-01").2 = .error msg ∧ msg ≠ "")
    ∧ ∀ r, (runScraper "config.json" ConfigSource.missing [] []
        "2026-01-01").2 ≠ .ok r :=
  config_error_aborts "config.json" "2026-01-01" ConfigSource.missing [] []
    (Or.inl rfl)

/-- The per-article block of `generate_markdown_report` (lines 611-621). -/
def articleParts (idx : Nat) (a : Article) : List String :=
  ["### " ++ toString idx ++ ". " ++ a.title ++ "\n",
   "- **链接**: [" ++ a.url ++ "](" ++ a.url ++ ")\n",
   "- **来源**: " ++ a.source ++ "\n",
   "- **区域**: " ++ a.region ++ "\n",
   "- **发布日期**: " ++ a.publish_date ++ "\n"]
  ++ (if a.description ≠ ""
      then ["- **摘要**: " ++ takeStr a.description 150 ++ "...\n"] else [])
  ++ ["\n"]

/-- One category section of the report (lines 604-621), skipped when the
category is empty. -/
def categorySection (c : String) (arts : List Article) : List String :=
  if arts = [] then []
  else ("\n## 📰 " ++ c ++ "\n")
    :: ("*共 " ++ toString arts.length ++ " 篇新闻*\n\n")
    :: ((arts.enumFrom 1).map (fun p => articleParts p.1 p.2)).flatten

/-- The content assembly of `generate_markdown_report` (lines 559-625),
taking the date/time strings and the summary returned by
`generate_daily_summary` as inputs (the file write is I/O outside the
model; `use_deepseek` covers the `self.use_deepseek and self.deepseek`
test, which stand or fall together after `__init__`). -/
def generateReportParts (useNewsapi useNewspaper useDeepseek : Bool)
    (summary : String) (newsData : List (String × List Article))
    (today nowStr : String) : List String :=
  ["# 新闻日报 - " ++ today ++ "\n",
   "> 生成时间: " ++ nowStr ++ "\n",
   "> 数据源: " ++ String.intercalate ", "
       ((if useNewsapi then ["NewsAPI"] else [])
         ++ (if useNewspaper then ["Newspaper3k"] else [])
         ++ (if useDeepseek then ["DeepSeek AI 摘要"] else [])) ++ "\n",
   "---\n"]
  ++ (if useDeepseek ∧ summary ≠ "" then
       ["\n## 🌟 今日导览摘要\n\n",
        "> *由 DeepSeek AI 根据当日新闻自动生成*\n\n",
        summary ++ "\n\n",
        "---\n"]
     else [])
  ++ (["\n## 📊 统计概览\n",
       "- **总计文章数**: "
         ++ toString (newsData.foldl (fun n p => n + p.2.length) 0) ++ "\n"]
      ++ (newsData.filter (fun p => !p.2.isEmpty)).map
          (fun p => "- **" ++ p.1 ++ "**: " ++ toString p.2.length ++ " 篇\n")
      ++ ["\n---\n"])
  ++ (newsData.map (fun p => categorySection p.1 p.2)).flatten
  ++ ["\n---\n", "*报告由新闻抓取工具自动生成*\n"]

theorem head?_append_of_eq (s t : String) (c : Char)
    (h : s.data.head? = some c) : (s ++ t).data.head? = some c := by
  rw [String.data_append]
  cases hs : s.data with
  | nil => rw [hs] at h; cases h
  | cons d l =>
    rw [hs] at h
    rw [List.cons_append]
    exact h

theorem marker_ne_of_head (t : String) (c : Char)
    (ht : t.data.head? = some c) (hc : c ≠ '\n') :
    "\n## 🌟 今日导览摘要\n\n" ≠ t := by
  intro he
  rw [← he] at ht
  have h0 : ("\n## 🌟 今日导览摘要\n\n").data.head? = some '\n' := rfl
  rw [h0] at ht
  exact hc (Option.some.inj ht).symm

theorem marker_ne_cat_header (c : String) :
    "\n## 🌟 今日导览摘要\n\n" ≠ "\n## 📰 " ++ c ++ "\n" := by
  intro he
  have hd := congrArg String.data he
  rw [String.data_append, String.data_append] at hd
  have h1 : ("\n## 🌟 今日导览摘要\n\n").data
      = '\n' :: '#' :: '#' :: ' ' :: '🌟' :: (" 今日导览摘要\n\n").data := rfl
  have h2 : ("\n## 📰 ").data = '\n' :: '#' :: '#' :: ' ' :: '📰' :: (" ").data := rfl
  rw [h1, h2] at hd
  simp only [List.cons_append, List.cons.injEq] at hd
  exact absurd hd.2.2.2.2.1 (by decide)

theorem marker_not_mem_articleParts (i : Nat) (a : Article) :
    "\n## 🌟 今日导览摘要\n\n" ∉ articleParts i a := by
  intro hm
  rw [articleParts] at hm
  rcases List.mem_append.mp hm with hm | hm
  · rcases List.mem_append.mp hm with hm | hm
    · simp only [List.mem_cons] at hm
      rcases hm with h | h | h | h | h | h
      · exact marker_ne_of_head _ '#'
          (by repeat apply head?_append_of_eq
              rfl) (by decide) h
      · exact marker_ne_of_head _ '-'
          (by repeat apply head?_append_of_eq
              rfl) (by decide) h
      · exact marker_ne_of_head _ '-'
          (by repeat apply head?_append_of_eq
              rfl) (by decide) h
      · exact marker_ne_of_head _ '-'
          (by repeat apply head?_append_of_eq
              rfl) (by decide) h
      · exact marker_ne_of_head _ '-'
          (by repeat apply head?_append_of_eq
              rfl) (by decide) h
      · simp at h
    · split at hm
      · rcases List.mem_singleton.mp hm with h
        exact marker_ne_of_head _ '-'
          (by repeat apply head?_append_of_eq
              rfl) (by decide) (List.mem_singleton.mp hm)
      · simp at hm
  · have := List.mem_singleton.mp hm
    exact absurd this (by decide)

theorem marker_not_mem_categorySection (c : String) (arts : List Article) :
    "\n## 🌟 今日导览摘要\n\n" ∉ categorySection c arts := by
  intro hm
  rw [categorySection] at hm
  split at hm
  · simp at hm
  · simp only [List.mem_cons] at hm
    rcases hm with h | h | h
    · exact marker_ne_cat_header c h
    · exact marker_ne_of_head _ '*'
        (by repeat apply head?_append_of_eq
            rfl) (by decide) h
    · rcases List.mem_flatten.mp h with ⟨l, hl, hml⟩
      rcases List.mem_map.mp hl with ⟨p, _, he⟩
      rw [← he] at hml
      exact marker_not_mem_articleParts p.1 p.2 hml

theorem generateDailySummary_failure (newsData : List (String × List Article)) :
    generateDailySummary SummarizerOutcome.failure newsData = "" := by
  unfold generateDailySummary
  split <;> rfl

theorem marker_mem_report_iff (useNA useNP : Bool) (s : String)
    (newsData : List (String × List Article)) (today nowStr : String) :
    "\n## 🌟 今日导览摘要\n\n"
        ∈ generateReportParts useNA useNP true s newsData today nowStr
      ↔ s ≠ "" := by
  constructor
  · intro hm hse
    subst hse
    rw [generateReportParts] at hm
    have hcond : ¬ ((true = true) ∧ ("" : String) ≠ "") := by simp
    rw [if_neg hcond] at hm
    rcases List.mem_append.mp hm with hm | hm
    · rcases List.mem_append.mp hm with hm | hm
      · rcases List.mem_append.mp hm with hm | hm
        · rcases List.mem_append.mp hm with hm | hm
          · simp only [List.mem_cons] at hm
            rcases hm with h | h | h | h | h
            · exact marker_ne_of_head _ '#'
                (by repeat apply head?_append_of_eq
                    rfl) (by decide) h
            · exact marker_ne_of_head _ '>'
                (by repeat apply head?_append_of_eq
                    rfl) (by decide) h
            · exact marker_ne_of_head _ '>'
                (by repeat apply head?_append_of_eq
                    rfl) (by decide) h
            · exact absurd h (by decide)
            · simp at h
          · simp at hm
        · rcases List.mem_append.mp hm with hm | hm
          · rcases List.mem_append.mp hm with hm | hm
            · simp only [List.mem_cons] at hm
              rcases hm with h | h | h
              · exact absurd h (by decide)
              · exact marker_ne_of_head _ '-'
                  (by repeat apply head?_append_of_eq
                      rfl) (by decide) h
              · simp at h
            · rcases List.mem_map.mp hm with ⟨p, _, he⟩
              refine marker_ne_of_head _ '-' ?_ (by decide) he.symm
              repeat apply head?_append_of_eq
              rfl
          · exact absurd (List.mem_singleton.mp hm) (by decide)
      · rcases List.mem_flatten.mp hm with ⟨l, hl, hml⟩
        rcases List.mem_map.mp hl with ⟨p, _, he⟩
        rw [← he] at hml
        exact marker_not_mem_categorySection p.1 p.2 hml
    · simp only [List.mem_cons] at hm
      rcases hm with h | h | h
      · exact absurd h (by decide)
      · exact absurd h (by decide)
      · simp at h
  · intro hs
    rw [generateReportParts]
    have hcond : (true = true) ∧ s ≠ "" := ⟨rfl, hs⟩
    rw [if_pos hcond]
    simp [List.mem_append]

theorem stats_mem_report (useNA useNP useDS : Bool) (s : String)
    (newsData : List (String × List Article)) (today nowStr : String) :
    "\n## 📊 统计概览\n"
      ∈ generateReportParts useNA useNP useDS s newsData today nowStr := by
  rw [generateReportParts]
  simp [List.mem_append]

theorem cat_header_mem_report (useNA useNP useDS : Bool) (s : String)
    (newsData : List (String × List Article)) (today nowStr : String)
    (c : String) (arts : List Article)
    (hmem : (c, arts) ∈ newsData) (hne : arts ≠ []) :
    ("\n## 📰 " ++ c ++ "\n")
      ∈ generateReportParts useNA useNP useDS s newsData today nowStr := by
  rw [generateReportParts]
  have h1 : ("\n## 📰 " ++ c ++ "\n") ∈ categorySection c arts := by
    rw [categorySection, if_neg hne]
    exact List.mem_cons_self _ _
  have h2 : categorySection c arts
      ∈ newsData.map (fun p => categorySection p.1 p.2) :=
    List.mem_map_of_mem _ hmem
  have h3 := List.mem_flatten.mpr ⟨_, h2, h1⟩
  simp only [List.mem_append]
  tauto

/-- C6: with the summarizer enabled, the assembled report always contains
the statistics section and one section per non-empty category; the
summary section appears iff `generate_daily_summary` returned a non-empty
string, so a summarizer failure (caught and turned into "") merely omits
the summary section and the report is still produced. -/
theorem summary_section_iff (useNA useNP : Bool) (outcome : SummarizerOutcome)
    (newsData : List (String × List Article)) (today nowStr : String) :
    ("\n## 🌟 今日导览摘要\n\n"
        ∈ generateReportParts useNA useNP true
            (generateDailySummary outcome newsData) newsData today nowStr
      ↔ generateDailySummary outcome newsData ≠ "")
    ∧ "\n## 📊 统计概览\n"
        ∈ generateReportParts useNA useNP true
            (generateDailySummary outcome newsData) newsData today nowStr
    ∧ (outcome = SummarizerOutcome.failure →
        "\n## 🌟 今日导览摘要\n\n"
          ∉ generateReportParts useNA useNP true
              (generateDailySummary outcome newsData) newsData today nowStr)
    ∧ (∀ c arts, (c, arts) ∈ newsData → arts ≠ [] →
        ("\n## 📰 " ++ c ++ "\n")
          ∈ generateReportParts useNA useNP true
              (generateDailySummary outcome newsData) newsData today nowStr) := by
  have hiff := marker_mem_report_iff useNA useNP
    (generateDailySummary outcome newsData) newsData today nowStr
  refine ⟨hiff, stats_mem_report _ _ _ _ _ _ _, ?_, ?_⟩
  · intro hf
    subst hf
    intro hm
    exact (hiff.mp hm) (generateDailySummary_failure newsData)
  · intro c arts hmem hne
    exact cat_header_mem_report _ _ _ _ _ _ _ c arts hmem hne

/-- Witness for C6: a failing summarizer over one non-empty category. -/
theorem summary_section_iff_witness :
    ("\n## 🌟 今日导览摘要\n\n"
        ∈ generateReportParts true false true
            (generateDailySummary SummarizerOutcome.failure
              [("Tech", [⟨"AI news", "u1", "s", "r", "d", ""⟩])])
            [("Tech", [⟨"AI news", "u1", "s", "r", "d", ""⟩])] "2026-01-01" "now"
      ↔ generateDailySummary SummarizerOutcome.failure
          [("Tech", [⟨"AI news", "u1", "s", "r", "d", ""⟩])] ≠ "")
    ∧ "\n## 📊 统计概览\n"
        ∈ generateReportParts true false true
            (generateDailySummary SummarizerOutcome.failure
              [("Tech", [⟨"AI news", "u1", "s", "r", "d", ""⟩])])
            [("Tech", [⟨"AI news", "u1", "s", "r", "d", ""⟩])] "2026-01-01" "now"
    ∧ (SummarizerOutcome.failure = SummarizerOutcome.failure →
        "\n## 🌟 今日导览摘要\n\n"
          ∉ generateReportParts true false true
              (generateDailySummary SummarizerOutcome.failure
                [("Tech", [⟨"AI news", "u1", "s", "r", "d", ""⟩])])
              [("Tech", [⟨"AI news", "u1", "s", "r", "d", ""⟩])] "2026-01-01" "now")
    ∧ (∀ c arts,
        (c, arts) ∈ [("Tech", [(⟨"AI news", "u1", "s", "r", "d", ""⟩ : Article)])] →
        arts ≠ [] →
        ("\n## 📰 " ++ c ++ "\n")
          ∈ generateReportParts true false true
              (generateDailySummary SummarizerOutcome.failure
                [("Tech", [⟨"AI news", "u1", "s", "r", "d", ""⟩])])
              [("Tech", [⟨"AI news", "u1", "s", "r", "d", ""⟩])] "2026-01-01" "now") :=
  summary_section_iff true false SummarizerOutcome.failure
    [("Tech", [⟨"AI news", "u1", "s", "r", "d", ""⟩])] "2026-01-01" "now"

end NewsScraper
